import Mathlib

/-!
Shallow embedding of the LLMP-backed event manager of
`src/libafl/src/events/llmp.rs` (devnexen/LibAFL), together with the
external contracts it consumes (stats registry, observer/feedback
oracles, codec), and proofs of the specified properties.

Machine integers (`u32` tags, `usize` counters, `u64` stats, `Duration`
timestamps) are modelled as `Nat`; byte buffers as `List Nat`.  Fallible
Rust code returning `Result<_, Error>` is modelled with `Except Err`;
a Rust `panic!()` is modelled by a distinguished `ProcOutcome.panicked`
constructor.  Calls into the state/feedback subsystem are recorded in an
explicit call trace so that "is called exactly once" properties can be
stated.
-/

namespace LlmpEvents

/-- Rust `Error` variants used by `events/llmp.rs`
(`Error::IllegalState`, `Error::Unknown`, serialization failures
bubbled up from `postcard` via `?`). -/
inductive Err : Type
  | illegalState (msg : String)
  | unknown (msg : String)
  | serialize (msg : String)
deriving DecidableEq, Repr

/-- Tag `_LLMP_TAG_EVENT_TO_CLIENT = 0x2C11E471` from `events/llmp.rs`. -/
def _LLMP_TAG_EVENT_TO_CLIENT : Nat := 0x2C11E471

/-- Tag `_LLMP_TAG_EVENT_TO_BROKER = 0x2B80438` from `events/llmp.rs`. -/
def _LLMP_TAG_EVENT_TO_BROKER : Nat := 0x2B80438

/-- Tag `LLMP_TAG_EVENT_TO_BOTH = 0x2B0741` from `events/llmp.rs`. -/
def LLMP_TAG_EVENT_TO_BOTH : Nat := 0x2B0741

/-- Tag `_LLMP_TAG_RESTART = 0x8357A87` from `events/llmp.rs`. -/
def _LLMP_TAG_RESTART : Nat := 0x8357A87

/-- The `ExitKind` enum from `src/afl/src/executors/mod.rs`:
`Ok = 1, Crash = 2, OOM = 3, Timeout = 4`. -/
inductive ExitKind : Type
  | ok
  | crash
  | oom
  | timeout
deriving DecidableEq, Repr

/-- The event enum `Event<I>` as used by `events/llmp.rs`
(variants `NewTestcase`, `UpdateStats`, `Objective`, `Log`).
The input, client config, observers buffer and log message are byte
blobs (`List Nat`); counters and times are `Nat`. -/
inductive Event : Type
  | newTestcase (input : List Nat) (client_config : List Nat) (corpus_size : Nat)
      (observers_buf : List Nat) (time : Nat) (executions : Nat)
  | updateStats (time : Nat) (executions : Nat)
  | objective (objective_size : Nat)
  | log (severity_level : Nat) (message : List Nat)
deriving DecidableEq, Repr

/-- Modelled from the spec: `Event::name()` lives in `events/mod.rs`,
which is not among the provided sources; it returns a short static name
per variant, used by the broker for its display line. -/
def Event.name : Event → String
  | .newTestcase _ _ _ _ _ _ => "New Testcase"
  | .updateStats _ _ => "Stats"
  | .objective _ => "Objective"
  | .log _ _ => "Log"

/-- The `BrokerEventResult` enum from `events/mod.rs` (not under the provided
sources, but fully pinned down by its two uses in `events/llmp.rs`):
either forward the event to all clients or consume it in the broker. -/
inductive BrokerEventResult : Type
  | forward
  | handled
deriving DecidableEq, Repr

/-- The `llmp::LlmpMsgHookResult` answer: what the broker hook answers to the
transport for each inbound message. -/
inductive LlmpMsgHookResult : Type
  | handled
  | forwardToClients
deriving DecidableEq, Repr

/-! ### Stats registry (broker side)

Modelled from the spec: the `Stats` trait and `ClientStats` live in
`stats.rs`, which is not among the provided sources.  Per §3 of the
spec the registry maps a sender id to a record holding `corpus_size`,
`objective_size`, `executions`, `last_update_time`; `update_executions`
also refreshes `last_update_time`, and entries are created lazily
(modelled by a total function with arbitrary current contents). -/

/-- Per-client stats record (spec §3, "Stats Registry"). -/
structure ClientStats : Type where
  corpus_size : Nat
  objective_size : Nat
  executions : Nat
  last_update_time : Nat
deriving DecidableEq, Repr

/-- Modelled from the spec: `ClientStats::update_corpus_size` sets the
sender's corpus size. -/
def ClientStats.update_corpus_size (c : ClientStats) (v : Nat) : ClientStats :=
  { c with corpus_size := v }

/-- Modelled from the spec: `ClientStats::update_executions` sets the
sender's executions and refreshes `last_update_time`. -/
def ClientStats.update_executions (c : ClientStats) (v : Nat) (t : Nat) : ClientStats :=
  { c with executions := v, last_update_time := t }

/-- Modelled from the spec: `ClientStats::update_objective_size` sets the
sender's objective size. -/
def ClientStats.update_objective_size (c : ClientStats) (v : Nat) : ClientStats :=
  { c with objective_size := v }

/-- Modelled from the spec: broker-side stats registry; `client_stats`
is the per-sender table and `display_log` records the display lines the
broker has drawn. -/
structure StatsModel : Type where
  client_stats : Nat → ClientStats
  display_log : List String

/-- Modelled from the spec: `Stats::client_stats_mut_for(sender_id)`
looks up (lazily creating) the sender's record. -/
def StatsModel.client_stats_for (st : StatsModel) (id : Nat) : ClientStats :=
  st.client_stats id

/-- Write back the (mutated) record of one sender. -/
def StatsModel.set_client_stats (st : StatsModel) (id : Nat) (c : ClientStats) : StatsModel :=
  { st with client_stats := fun i => if i = id then c else st.client_stats i }

/-- Modelled from the spec: `Stats::display(msg)` redraws the display,
recorded here as an appended log line. -/
def StatsModel.display (st : StatsModel) (s : String) : StatsModel :=
  { st with display_log := st.display_log ++ [s] }

/-- Embeds `LlmpEventManager::handle_in_broker` (`events/llmp.rs:230-278`):
classify the event, update the sender's stats, and answer
`Forward`/`Handled`.  In the source the `Result` is always `Ok`
(`clippy::unnecessary_wraps`), so it is modelled as a pure function. -/
def handle_in_broker (stats : StatsModel) (sender_id : Nat) (event : Event) :
    BrokerEventResult × StatsModel :=
  match event with
  | .newTestcase _ _ corpus_size _ time executions =>
      let client := stats.client_stats_for sender_id
      let client := client.update_corpus_size corpus_size
      let client := client.update_executions executions time
      let stats := stats.set_client_stats sender_id client
      let stats := stats.display (event.name ++ " #" ++ toString sender_id)
      (.forward, stats)
  | .updateStats time executions =>
      let client := stats.client_stats_for sender_id
      let client := client.update_executions executions time
      let stats := stats.set_client_stats sender_id client
      let stats := stats.display (event.name ++ " #" ++ toString sender_id)
      (.handled, stats)
  | .objective objective_size =>
      let client := stats.client_stats_for sender_id
      let client := client.update_objective_size objective_size
      let stats := stats.set_client_stats sender_id client
      let stats := stats.display (event.name ++ " #" ++ toString sender_id)
      (.handled, stats)
  | .log _ _ =>
      -- the Log arm only prints to stdout; it touches neither the
      -- stats registry nor the display
      (.handled, stats)

/-! ### Wire codec

Modelled from the spec: the `postcard` codec is an external collaborator
(spec §4.1 gives `decode(encode(e)) == e` and a self-describing variant
tag with fixed field order).  Bytes are modelled as `Nat` tokens;
variable-length fields are length-prefixed. -/

/-- Length-prefix a byte blob. -/
def encodeList (xs : List Nat) : List Nat := xs.length :: xs

/-- Consume one length-prefixed blob, returning it and the remainder. -/
def decodeList (bytes : List Nat) : Option (List Nat × List Nat) :=
  match bytes with
  | [] => none
  | n :: rest => if n ≤ rest.length then some (rest.take n, rest.drop n) else none

/-- Modelled from the spec: `postcard::to_allocvec` on an `Event<I>`
(compact, variant-tagged, fixed field order). -/
def encodeEvent : Event → List Nat
  | .newTestcase input client_config corpus_size observers_buf time executions =>
      0 :: (encodeList input ++ encodeList client_config ++ corpus_size ::
        (encodeList observers_buf ++ [time, executions]))
  | .updateStats time executions => [1, time, executions]
  | .objective objective_size => [2, objective_size]
  | .log severity_level message => 3 :: severity_level :: encodeList message

/-- Modelled from the spec: `postcard::from_bytes` on an `Event<I>`;
structural failures surface as a serialization error. -/
def decodeEvent (bytes : List Nat) : Except Err Event :=
  match bytes with
  | 0 :: rest =>
      match decodeList rest with
      | some (input, rest1) =>
          match decodeList rest1 with
          | some (client_config, corpus_size :: rest2) =>
              match decodeList rest2 with
              | some (observers_buf, [time, executions]) =>
                  .ok (.newTestcase input client_config corpus_size observers_buf time executions)
              | _ => .error (.serialize "malformed NewTestcase frame")
          | _ => .error (.serialize "malformed NewTestcase frame")
      | none => .error (.serialize "malformed NewTestcase frame")
  | [1, time, executions] => .ok (.updateStats time executions)
  | [2, objective_size] => .ok (.objective objective_size)
  | 3 :: severity_level :: rest =>
      match decodeList rest with
      | some (message, []) => .ok (.log severity_level message)
      | _ => .error (.serialize "malformed Log frame")
  | _ => .error (.serialize "unknown event discriminant")

/-! ### The event manager -/

/-- Modelled from the spec: `LlmpClientDescription` (from `bolts/llmp.rs`,
not among the provided sources) — the identifiers and sizes of a client's
shared-memory pages, sufficient for another process to re-map the same
rings (spec §3, "EndpointDescriptor"). -/
structure LlmpClientDescription : Type where
  sender_map_id : Nat
  sender_map_size : Nat
  receiver_map_id : Nat
  receiver_map_size : Nat
deriving DecidableEq, Repr

/-- Client half of an LLMP connection: its restorable description and
the messages available to `recv_buf` (sender id, tag, payload), in
arrival order. -/
structure ClientState : Type where
  description : LlmpClientDescription
  inbox : List (Nat × Nat × List Nat)
deriving DecidableEq, Repr

/-- The `llmp::LlmpConnection` enum: either the broker role or the client role.
The broker's broadcast-ring internals belong to the out-of-scope
transport and carry no data relevant to the event layer. -/
inductive LlmpConnection : Type
  | isBroker
  | isClient (client : ClientState)
deriving DecidableEq, Repr

/-- The `LlmpEventManager` struct (`events/llmp.rs:52-64`): optional stats (present
on managers built with `new_on_port`, absent on reattached clients) and
the llmp connection. -/
structure LlmpEventManager : Type where
  stats : Option StatsModel
  llmp : LlmpConnection

/-- Embeds `LlmpEventManager::is_broker` (`events/llmp.rs:194-196`). -/
def LlmpEventManager.is_broker (m : LlmpEventManager) : Bool :=
  match m.llmp with
  | .isBroker => true
  | .isClient _ => false

/-- Modelled from the spec: `LlmpConnection::describe` (in
`bolts/llmp.rs`, not among the provided sources) returns the client's
restorable description and fails on a broker (spec §4.4: "Fails if
called on a broker"). `LlmpEventManager::describe` forwards to it. -/
def LlmpEventManager.describe (m : LlmpEventManager) : Except Err LlmpClientDescription :=
  match m.llmp with
  | .isClient client => .ok client.description
  | .isBroker => .error (.illegalState "describe() called on a broker")

/-- Embeds `LlmpEventManager::existing_client_from_description`
(`events/llmp.rs:166-180`): a reattached client manager with no stats. -/
def existing_client_from_description (d : LlmpClientDescription) : LlmpEventManager :=
  { stats := none, llmp := .isClient { description := d, inbox := [] } }

/-! ### Client-side handling

The state/feedback subsystem (`IfInteresting`), the observer decoding
and the scheduler are external contracts (spec §6); they are passed in
as oracles, and the calls `handle_in_client` makes into them are
recorded in a trace. -/

/-- A call made by the client handler into the state subsystem. -/
inductive ClientCall : Type
  | isInterestingCall (input : List Nat) (exit : ExitKind)
  | addIfInterestingCall (input : List Nat) (fitness : Nat)
deriving DecidableEq, Repr

/-- The external contracts `handle_in_client` consumes: observer
deserialization (`postcard::from_bytes::<OT>`), `State::is_interesting`
and `State::add_if_interesting` (spec §6). -/
structure ClientEnv (Obs : Type) : Type where
  decode_observers : List Nat → Except Err Obs
  is_interesting : List Nat → Obs → ExitKind → Except Err Nat
  add_if_interesting : List Nat → Nat → Except Err (Option Nat)

/-- Embeds `LlmpEventManager::handle_in_client` (`events/llmp.rs:282-327`):
on `NewTestcase`, decode the observers, ask the feedback for a fitness,
and adopt the input iff `fitness > 0`; any other variant is answered
with an `Error::Unknown`.  Returns the result together with the trace
of state-subsystem calls made, in order. -/
def handle_in_client {Obs : Type} (env : ClientEnv Obs) (_sender_id : Nat)
    (event : Event) : Except Err Unit × List ClientCall :=
  match event with
  | .newTestcase input _ _ observers_buf _ _ =>
      match env.decode_observers observers_buf with
      | .error e => (.error e, [])
      | .ok observers =>
          match env.is_interesting input observers ExitKind.ok with
          | .error e => (.error e, [.isInterestingCall input ExitKind.ok])
          | .ok fitness =>
              if 0 < fitness then
                match env.add_if_interesting input fitness with
                | .error e =>
                    (.error e,
                     [.isInterestingCall input ExitKind.ok,
                      .addIfInterestingCall input fitness])
                | .ok _ =>
                    (.ok (),
                     [.isInterestingCall input ExitKind.ok,
                      .addIfInterestingCall input fitness])
              else (.ok (), [.isInterestingCall input ExitKind.ok])
  | _ =>
      (.error (.unknown ("Received illegal message that message should not have arrived: "
        ++ event.name ++ ".")), [])

/-- Outcome of an operation that can also abort the process: Rust `Ok`,
Rust `Err`, or a `panic!()` with its diagnostic message. -/
inductive ProcOutcome (α : Type) : Type
  | ok (a : α)
  | err (e : Err)
  | panicked (msg : String)
deriving DecidableEq, Repr

/-- The drain loop of `LlmpEventManager::process`
(`events/llmp.rs:358-367`): pop every available message; a message
tagged `_LLMP_TAG_EVENT_TO_BROKER` aborts the process with a panic,
any other message is decoded into an event (decode failure is returned
via `?`). -/
def drainMsgs : List (Nat × Nat × List Nat) → ProcOutcome (List (Nat × Event))
  | [] => .ok []
  | (sender_id, tag, msg) :: rest =>
      if tag = _LLMP_TAG_EVENT_TO_BROKER then
        .panicked "EVENT_TO_BROKER parcel should not have arrived in the client!"
      else
        match decodeEvent msg with
        | .error e => .err e
        | .ok event =>
            match drainMsgs rest with
            | .ok events => .ok ((sender_id, event) :: events)
            | .err e => .err e
            | .panicked m => .panicked m

/-- The dispatch phase of `LlmpEventManager::process`
(`events/llmp.rs:375-377`): `events.drain(..).try_for_each(...)` —
dispatch each drained event via `handle_in_client`, stopping at the
first error, which is propagated with `?`.  Returns the result and the
concatenated call trace. -/
def dispatchEvents {Obs : Type} (env : ClientEnv Obs) :
    List (Nat × Event) → Except Err Unit × List ClientCall
  | [] => (.ok (), [])
  | (sender_id, event) :: rest =>
      match handle_in_client env sender_id event with
      | (.error e, trace) => (.error e, trace)
      | (.ok _, trace) =>
          ((dispatchEvents env rest).1, trace ++ (dispatchEvents env rest).2)

/-- Embeds `LlmpEventManager::process` (`events/llmp.rs:346-379`): on a client,
drain all available messages, then dispatch each via
`handle_in_client`, returning the number drained; on a broker, drain
and dispatch nothing and return `Ok(0)`.  The returned manager reflects
the consumed inbox; the call trace records every state-subsystem call
made. -/
def process {Obs : Type} (env : ClientEnv Obs) (mgr : LlmpEventManager) :
    ProcOutcome Nat × List ClientCall × LlmpEventManager :=
  match mgr.llmp with
  | .isClient client =>
      let drained : LlmpEventManager :=
        { mgr with llmp := .isClient { client with inbox := [] } }
      match drainMsgs client.inbox with
      | .panicked m => (.panicked m, [], drained)
      | .err e => (.err e, [], drained)
      | .ok events =>
          let count := events.length
          match dispatchEvents env events with
          | (.ok _, trace) => (.ok count, trace, drained)
          | (.error e, trace) => (.err e, trace, drained)
  | .isBroker => (.ok 0, [], mgr)

/-! ### Broker loop -/

/-- The message hook `broker_loop` installs into the transport's
`loop_forever` (`events/llmp.rs:204-216`): a message tagged
`LLMP_TAG_EVENT_TO_BOTH` is decoded and dispatched to
`handle_in_broker`, whose `Forward`/`Handled` answer is translated to
`ForwardToClients`/`Handled`; any other tag is answered
`ForwardToClients` without being decoded. -/
def brokerHook (stats : StatsModel) (sender_id : Nat) (tag : Nat) (msg : List Nat) :
    Except Err (LlmpMsgHookResult × StatsModel) :=
  if tag = LLMP_TAG_EVENT_TO_BOTH then
    match decodeEvent msg with
    | .error e => .error e
    | .ok event =>
        match handle_in_broker stats sender_id event with
        | (.forward, stats1) => .ok (.forwardToClients, stats1)
        | (.handled, stats1) => .ok (.handled, stats1)
  else .ok (.forwardToClients, stats)

/-- Result of a (finite prefix of a) `broker_loop` run: the Rust return
value, the manager as left behind, and the per-message answers given to
the transport. -/
structure BrokerLoopResult : Type where
  result : Except Err Unit
  mgr : LlmpEventManager
  answers : List LlmpMsgHookResult

/-- One fold step of the transport's `loop_forever` over the hook.
Modelled from the spec: `loop_forever` lives in `bolts/llmp.rs` (not
among the provided sources); per spec §7 a per-message hook error is
logged and the message skipped. -/
def brokerLoopRun (stats : StatsModel) :
    List (Nat × Nat × List Nat) → StatsModel × List LlmpMsgHookResult
  | [] => (stats, [])
  | (sender_id, tag, msg) :: rest =>
      match brokerHook stats sender_id tag msg with
      | .ok (answer, stats1) =>
          let (stats2, answers) := brokerLoopRun stats1 rest
          (stats2, answer :: answers)
      | .error _ =>
          brokerLoopRun stats rest

/-- Embeds `LlmpEventManager::broker_loop` (`events/llmp.rs:199-226`) observed
over a finite prefix `incoming` of the transport's message stream: on a
broker, install the hook and run; on a client, return
`Error::IllegalState` at once, leaving the manager untouched and
answering nothing.  (On a broker the source unwraps `self.stats`; the
constructors that produce brokers always populate it, and the model
requires it via `getD`.) -/
def broker_loop (mgr : LlmpEventManager) (incoming : List (Nat × Nat × List Nat)) :
    BrokerLoopResult :=
  match mgr.llmp with
  | .isBroker =>
      let stats := mgr.stats.getD { client_stats := fun _ => ⟨0, 0, 0, 0⟩, display_log := [] }
      let (stats1, answers) := brokerLoopRun stats incoming
      { result := .ok (), mgr := { mgr with stats := some stats1 }, answers := answers }
  | .isClient _ =>
      { result := .error (.illegalState "Called broker loop in the client"),
        mgr := mgr, answers := [] }

/-! ### State serialization across restarts -/

/-- Modelled from the spec: `postcard` encoding of the
`(state, description)` pair written by `serialize_state_mgr`; the state
component is encoded by the caller-supplied (generic `S: Serialize`)
encoder and length-prefixed, the description follows as four fields. -/
def encodeStatePair (stateBytes : List Nat) (d : LlmpClientDescription) : List Nat :=
  encodeList stateBytes ++
    [d.sender_map_id, d.sender_map_size, d.receiver_map_id, d.receiver_map_size]

/-- Embeds `serialize_state_mgr` (`events/llmp.rs:391-402`): serialize
`(state, mgr.describe()?)` to bytes; `encS` is the wire encoding of the
generic state type `S`. -/
def serialize_state_mgr {S : Type} (encS : S → List Nat) (state : S)
    (mgr : LlmpEventManager) : Except Err (List Nat) :=
  match mgr.describe with
  | .error e => .error e
  | .ok d => .ok (encodeStatePair (encS state) d)

/-- Embeds `deserialize_state_mgr` (`events/llmp.rs:406-421`): decode the
`(state, description)` tuple and reattach a client manager from the
description; `decS` is the wire decoding of the generic state type. -/
def deserialize_state_mgr {S : Type} (decS : List Nat → Option S)
    (bytes : List Nat) : Except Err (S × LlmpEventManager) :=
  match decodeList bytes with
  | none => .error (.serialize "malformed state tuple")
  | some (stateBytes, rest) =>
      match decS stateBytes with
      | none => .error (.serialize "malformed state")
      | some state =>
          match rest with
          | [a, b, c, d] =>
              .ok (state, existing_client_from_description ⟨a, b, c, d⟩)
          | _ => .error (.serialize "malformed client description")

/-- Embeds `LlmpRestartingEventManager::on_restart` (`events/llmp.rs:454-460`):
reset the snapshot page, then send `serialize_state_mgr(state, llmp_mgr)`
tagged `_LLMP_TAG_RESTART`.  The model returns the message written to
the snapshot page. -/
def on_restart {S : Type} (encS : S → List Nat) (state : S)
    (llmp_mgr : LlmpEventManager) : Except Err (Nat × List Nat) :=
  match serialize_state_mgr encS state llmp_mgr with
  | .error e => .error e
  | .ok bytes => .ok (_LLMP_TAG_RESTART, bytes)

/-! ### Destruction -/

/-- Observable actions during manager teardown. -/
inductive MgrAction : Type
  | awaitSaveToUnmapBlocking
  | teardownPages
deriving DecidableEq, Repr

/-- Embeds `EventManager::await_restart_safe` for `LlmpEventManager`
(`events/llmp.rs:339-344`): on a client, block in the transport's
`await_save_to_unmap_blocking` until the broker has mapped the client's
pages; on a broker, do nothing.  Modelled as the emitted action list. -/
def await_restart_safe (m : LlmpEventManager) : List MgrAction :=
  match m.llmp with
  | .isClient _ => [.awaitSaveToUnmapBlocking]
  | .isBroker => []

/-- Embeds `impl Drop for LlmpEventManager` (`events/llmp.rs:107-118`): the
drop glue runs the `drop` body — which only calls
`await_restart_safe` — and only afterwards tears the fields (and with
them the mapped pages) down. -/
def drop_manager (m : LlmpEventManager) : List MgrAction :=
  await_restart_safe m ++ [.teardownPages]

/-! ### Concrete instances used by the witnesses -/

/-- A trace predicate: is this call an `add_if_interesting` call? -/
def ClientCall.isAdd : ClientCall → Bool
  | .addIfInterestingCall _ _ => true
  | _ => false

/-- The `add_if_interesting` calls of a trace, in order. -/
def addCalls (trace : List ClientCall) : List ClientCall :=
  trace.filter ClientCall.isAdd

/-- Discriminates the `NewTestcase` variant. -/
def Event.isNewTestcase : Event → Bool
  | .newTestcase _ _ _ _ _ _ => true
  | _ => false

/-- An empty stats registry. -/
def statsInit : StatsModel :=
  { client_stats := fun _ => ⟨0, 0, 0, 0⟩, display_log := [] }

/-- A concrete endpoint description. -/
def descEx : LlmpClientDescription := ⟨1, 4096, 2, 4096⟩

/-- A concrete client-role manager with an empty inbox. -/
def clientMgrEx : LlmpEventManager :=
  { stats := none, llmp := .isClient { description := descEx, inbox := [] } }

/-- A concrete broker-role manager. -/
def brokerMgrEx : LlmpEventManager :=
  { stats := some statsInit, llmp := .isBroker }

/-- A concrete client environment whose feedback always reports
fitness 1 and always adopts. -/
def envOne : ClientEnv Unit :=
  { decode_observers := fun _ => .ok ()
  , is_interesting := fun _ _ _ => .ok 1
  , add_if_interesting := fun _ _ => .ok (some 0) }

/-- A client manager whose inbox holds an `UpdateStats` event followed
by a `NewTestcase` event, both tagged `LLMP_TAG_EVENT_TO_BOTH`. -/
def clientMgrBatch : LlmpEventManager :=
  { stats := none
  , llmp := .isClient
      { description := descEx
      , inbox :=
          [(4, LLMP_TAG_EVENT_TO_BOTH, encodeEvent (.updateStats 1 2)),
           (5, LLMP_TAG_EVENT_TO_BOTH, encodeEvent (.newTestcase [7] [] 1 [] 0 1))] } }

/-- A client manager whose inbox holds one message illegally tagged
`_LLMP_TAG_EVENT_TO_BROKER`. -/
def clientMgrBad : LlmpEventManager :=
  { stats := none
  , llmp := .isClient
      { description := descEx
      , inbox := [(5, _LLMP_TAG_EVENT_TO_BROKER, [1, 2, 3])] } }

/-! ### Helper lemmas -/

/-- Decoding undoes length-prefix encoding, leaving the remainder. -/
theorem decodeList_encodeList (xs r : List Nat) :
    decodeList (encodeList xs ++ r) = some (xs, r) := by
  have h : xs.length ≤ (xs ++ r).length := by simp
  show (if xs.length ≤ (xs ++ r).length then
      some ((xs ++ r).take xs.length, (xs ++ r).drop xs.length) else none) = some (xs, r)
  rw [if_pos h, List.take_left, List.drop_left]

/-- A non-`NewTestcase` event makes `handle_in_client` fail at once,
calling nothing. -/
theorem handle_in_client_not_testcase {Obs : Type} (env : ClientEnv Obs)
    (sender_id : Nat) (event : Event) (hne : event.isNewTestcase = false) :
    handle_in_client env sender_id event =
      (.error (.unknown ("Received illegal message that message should not have arrived: "
        ++ event.name ++ ".")), []) := by
  cases event with
  | newTestcase input cc cs ob t ex => simp [Event.isNewTestcase] at hne
  | updateStats t ex => rfl
  | objective os => rfl
  | log sev msg => rfl

/-- If a prefix of the inbox drains cleanly, a later message tagged
`_LLMP_TAG_EVENT_TO_BROKER` makes the whole drain abort with the
source's diagnostic. -/
theorem drainMsgs_broker_tag (pre : List (Nat × Nat × List Nat))
    (evs : List (Nat × Event)) (sender_id : Nat) (msg : List Nat)
    (post : List (Nat × Nat × List Nat)) (hpre : drainMsgs pre = .ok evs) :
    drainMsgs (pre ++ (sender_id, _LLMP_TAG_EVENT_TO_BROKER, msg) :: post) =
      .panicked "EVENT_TO_BROKER parcel should not have arrived in the client!" := by
  induction pre generalizing evs with
  | nil => simp [drainMsgs]
  | cons head tail ih =>
      obtain ⟨s, t, b⟩ := head
      rw [List.cons_append]
      unfold drainMsgs at hpre ⊢
      by_cases ht : t = _LLMP_TAG_EVENT_TO_BROKER
      · rw [if_pos ht] at hpre; exact absurd hpre (by simp)
      · rw [if_neg ht] at hpre ⊢
        cases hd : decodeEvent b with
        | error e => rw [hd] at hpre; simp at hpre
        | ok event =>
            rw [hd] at hpre
            cases htail : drainMsgs tail with
            | ok evsTail => rw [ih evsTail htail]
            | err e => rw [htail] at hpre; simp at hpre
            | panicked m => rw [htail] at hpre; simp at hpre

/-- Equation lemma: dispatching an empty batch. -/
theorem dispatchEvents_nil {Obs : Type} (env : ClientEnv Obs) :
    dispatchEvents env [] = (.ok (), []) := rfl

/-- Equation lemma: dispatching a non-empty batch. -/
theorem dispatchEvents_cons {Obs : Type} (env : ClientEnv Obs) (sender_id : Nat)
    (event : Event) (rest : List (Nat × Event)) :
    dispatchEvents env ((sender_id, event) :: rest) =
      (match handle_in_client env sender_id event with
       | (.error e, trace) => (.error e, trace)
       | (.ok _, trace) =>
           ((dispatchEvents env rest).1, trace ++ (dispatchEvents env rest).2)) := rfl

/-- Dispatching a batch whose prefix succeeds continues into the suffix,
concatenating the traces. -/
theorem dispatchEvents_append_ok {Obs : Type} (env : ClientEnv Obs)
    (good : List (Nat × Event)) (tr : List ClientCall)
    (rest : List (Nat × Event))
    (hgood : dispatchEvents env good = (.ok (), tr)) :
    dispatchEvents env (good ++ rest) =
      ((dispatchEvents env rest).1, tr ++ (dispatchEvents env rest).2) := by
  induction good generalizing tr with
  | nil =>
      rw [dispatchEvents_nil] at hgood
      injection hgood with h1 h2
      subst h2
      simp
  | cons head tail ih =>
      obtain ⟨s, event⟩ := head
      rw [dispatchEvents_cons] at hgood
      rw [List.cons_append, dispatchEvents_cons]
      cases hh : handle_in_client env s event with
      | mk res trHead =>
          rw [hh] at hgood
          cases res with
          | error e => simp at hgood
          | ok u =>
              have hgood2 : ((dispatchEvents env tail).1,
                  trHead ++ (dispatchEvents env tail).2) =
                  ((Except.ok () : Except Err Unit), tr) := hgood
              injection hgood2 with h1 h2
              have htail2 : dispatchEvents env tail =
                  (.ok (), (dispatchEvents env tail).2) := by
                rw [← h1]
              rw [ih _ htail2, ← h2, List.append_assoc]

/-! ### Claim theorems -/

/-- C1: for every received event, `handle_in_broker` returns `Forward`
exactly for the `NewTestcase` variant and `Handled` for `UpdateStats`,
`Objective` and `Log`, after performing the stats updates of the
classification table: `NewTestcase` sets the sender's `corpus_size`,
`executions` (and `last_update_time`), `UpdateStats` sets the sender's
`executions` (and `last_update_time`), `Objective` sets the sender's
`objective_size`, and `Log` changes no stats; no other sender's record
is touched. -/
theorem handle_in_broker_classification (stats : StatsModel) (sender_id : Nat) :
    (∀ input cc cs ob t ex,
      (handle_in_broker stats sender_id (.newTestcase input cc cs ob t ex)).1 =
        .forward ∧
      ∀ j, (handle_in_broker stats sender_id
          (.newTestcase input cc cs ob t ex)).2.client_stats j =
        if j = sender_id then
          { stats.client_stats sender_id with
              corpus_size := cs, executions := ex, last_update_time := t }
        else stats.client_stats j) ∧
    (∀ t ex,
      (handle_in_broker stats sender_id (.updateStats t ex)).1 = .handled ∧
      ∀ j, (handle_in_broker stats sender_id (.updateStats t ex)).2.client_stats j =
        if j = sender_id then
          { stats.client_stats sender_id with
              executions := ex, last_update_time := t }
        else stats.client_stats j) ∧
    (∀ os,
      (handle_in_broker stats sender_id (.objective os)).1 = .handled ∧
      ∀ j, (handle_in_broker stats sender_id (.objective os)).2.client_stats j =
        if j = sender_id then
          { stats.client_stats sender_id with objective_size := os }
        else stats.client_stats j) ∧
    (∀ sev msg,
      handle_in_broker stats sender_id (.log sev msg) = (.handled, stats)) :=
  ⟨fun _ _ _ _ _ _ => ⟨rfl, fun _ => rfl⟩,
   fun _ _ => ⟨rfl, fun _ => rfl⟩,
   fun _ => ⟨rfl, fun _ => rfl⟩,
   fun _ _ => rfl⟩

/-- C9: the broker's handling of a `NewTestcase` event does not depend
on the `input` and `observers_buf` payloads: two `NewTestcase` events
differing only in those fields produce identical stats updates and the
same `Forward` answer. -/
theorem handle_in_broker_blob_noninterference (stats : StatsModel)
    (sender_id : Nat) (cc : List Nat) (cs t ex : Nat)
    (input₁ ob₁ input₂ ob₂ : List Nat) :
    handle_in_broker stats sender_id (.newTestcase input₁ cc cs ob₁ t ex) =
      handle_in_broker stats sender_id (.newTestcase input₂ cc cs ob₂ t ex) := rfl

/-- C2: for a `NewTestcase` event handled by `handle_in_client`, when
the fitness reported by `is_interesting(input, observers, ExitKind::Ok)`
is positive, `add_if_interesting(input, fitness, scheduler)` is called
exactly once (with those arguments); when the fitness is `0`, it is not
called at all. -/
theorem handle_in_client_adoption {Obs : Type} (env : ClientEnv Obs)
    (sender_id : Nat) (input cc ob : List Nat) (cs t ex : Nat)
    (observers : Obs) (fitness : Nat)
    (hdec : env.decode_observers ob = .ok observers)
    (hfit : env.is_interesting input observers ExitKind.ok = .ok fitness) :
    (0 < fitness →
      addCalls (handle_in_client env sender_id
          (.newTestcase input cc cs ob t ex)).2 =
        [.addIfInterestingCall input fitness]) ∧
    (fitness = 0 →
      addCalls (handle_in_client env sender_id
          (.newTestcase input cc cs ob t ex)).2 = []) := by
  simp only [handle_in_client, hdec, hfit]
  constructor
  · intro hpos
    rw [if_pos hpos]
    cases hadd : env.add_if_interesting input fitness with
    | error e => rfl
    | ok r => rfl
  · intro hzero
    subst hzero
    rw [if_neg (by omega)]
    rfl

/-- A concrete exercise of `handle_in_client_adoption`: with a feedback
that reports fitness 1, the received input is adopted by exactly one
`add_if_interesting` call. -/
theorem handle_in_client_adoption_witness :
    addCalls (handle_in_client envOne 0
        (.newTestcase [1, 2] [] 1 [9] 0 1)).2 =
      [.addIfInterestingCall [1, 2] 1] :=
  (handle_in_client_adoption envOne 0 [1, 2] [] [9] 1 0 1 () 1 rfl rfl).1
    (by decide)

/-- C6: calling `broker_loop` on a manager whose llmp connection is in
the client role performs no dispatch (no answers are given to the
transport), returns `Error::IllegalState`, and leaves the manager
unchanged. -/
theorem broker_loop_client_illegal (mgr : LlmpEventManager)
    (incoming : List (Nat × Nat × List Nat))
    (hc : mgr.is_broker = false) :
    broker_loop mgr incoming =
      { result := .error (.illegalState "Called broker loop in the client"),
        mgr := mgr, answers := [] } := by
  unfold broker_loop
  cases hm : mgr.llmp with
  | isBroker =>
      rw [LlmpEventManager.is_broker, hm] at hc
      exact absurd hc (by simp)
  | isClient c => rfl

/-- A concrete exercise of `broker_loop_client_illegal` on a client-role
manager. -/
theorem broker_loop_client_illegal_witness :
    broker_loop clientMgrEx [] =
      { result := .error (.illegalState "Called broker loop in the client"),
        mgr := clientMgrEx, answers := [] } :=
  broker_loop_client_illegal clientMgrEx [] rfl

/-- C7: the hook `broker_loop` installs answers a message tagged
`LLMP_TAG_EVENT_TO_BOTH` by decoding it and dispatching
`handle_in_broker`, translating `Forward` to `ForwardToClients` and
`Handled` to `Handled`; a message with any other tag is answered
`ForwardToClients` with the stats untouched, uniformly in its payload
(it is never decoded). -/
theorem broker_hook_dispatch (stats : StatsModel) (sender_id : Nat) :
    (∀ msg event, decodeEvent msg = .ok event →
      brokerHook stats sender_id LLMP_TAG_EVENT_TO_BOTH msg =
        .ok ((match (handle_in_broker stats sender_id event).1 with
              | .forward => LlmpMsgHookResult.forwardToClients
              | .handled => LlmpMsgHookResult.handled),
             (handle_in_broker stats sender_id event).2)) ∧
    (∀ tag, tag ≠ LLMP_TAG_EVENT_TO_BOTH → ∀ msg,
      brokerHook stats sender_id tag msg = .ok (.forwardToClients, stats)) := by
  constructor
  · intro msg event hdec
    simp only [brokerHook, if_pos, hdec]
    cases hr : handle_in_broker stats sender_id event with
    | mk r stats1 =>
        cases r with
        | forward => rfl
        | handled => rfl
  · intro tag htag msg
    unfold brokerHook
    rw [if_neg htag]

/-- A concrete exercise of `broker_hook_dispatch`: an encoded
`Objective` event tagged `EVENT_TO_BOTH` is dispatched through
`handle_in_broker`, and a message tagged `EVENT_TO_CLIENT` is forwarded
verbatim. -/
theorem broker_hook_dispatch_witness :
    brokerHook statsInit 1 LLMP_TAG_EVENT_TO_BOTH
        (encodeEvent (.objective 3)) =
      .ok ((match (handle_in_broker statsInit 1 (.objective 3)).1 with
            | .forward => LlmpMsgHookResult.forwardToClients
            | .handled => LlmpMsgHookResult.handled),
           (handle_in_broker statsInit 1 (.objective 3)).2) ∧
    brokerHook statsInit 1 _LLMP_TAG_EVENT_TO_CLIENT [7] =
      .ok (.forwardToClients, statsInit) :=
  ⟨(broker_hook_dispatch statsInit 1).1 (encodeEvent (.objective 3))
      (.objective 3) rfl,
   (broker_hook_dispatch statsInit 1).2 _LLMP_TAG_EVENT_TO_CLIENT
      (by decide) [7]⟩

/-- C5: if a message tagged `_LLMP_TAG_EVENT_TO_BROKER` is among the
messages a client's `process` drains (after a cleanly draining prefix),
the process aborts with the source's panic diagnostic and no event —
in particular not that message — is ever dispatched to the client
handler (the call trace is empty). -/
theorem process_broker_tag_aborts {Obs : Type} (env : ClientEnv Obs)
    (mgr : LlmpEventManager) (client : ClientState)
    (pre : List (Nat × Nat × List Nat)) (evs : List (Nat × Event))
    (sender_id : Nat) (msg : List Nat) (post : List (Nat × Nat × List Nat))
    (hm : mgr.llmp = .isClient client)
    (hinbox : client.inbox = pre ++ (sender_id, _LLMP_TAG_EVENT_TO_BROKER, msg) :: post)
    (hpre : drainMsgs pre = .ok evs) :
    (process env mgr).1 =
      .panicked "EVENT_TO_BROKER parcel should not have arrived in the client!" ∧
    (process env mgr).2.1 = [] := by
  have hdrain := drainMsgs_broker_tag pre evs sender_id msg post hpre
  rw [← hinbox] at hdrain
  simp only [process, hm, hdrain]
  exact ⟨trivial, trivial⟩

/-- A concrete exercise of `process_broker_tag_aborts`: one illegally
tagged message makes `process` abort with the diagnostic. -/
theorem process_broker_tag_aborts_witness :
    (process envOne clientMgrBad).1 =
      .panicked "EVENT_TO_BROKER parcel should not have arrived in the client!" ∧
    (process envOne clientMgrBad).2.1 = [] :=
  process_broker_tag_aborts envOne clientMgrBad
    { description := descEx, inbox := [(5, _LLMP_TAG_EVENT_TO_BROKER, [1, 2, 3])] }
    [] [] 5 [1, 2, 3] [] rfl rfl rfl

/-- C4 counterexample: with a feedback that would adopt anything
(`envOne`), a batch holding an `UpdateStats` event followed by a
`NewTestcase` event makes `process` return the error — instead of
`Ok(2)` — and dispatch nothing at all: the trace is empty, so the
`NewTestcase` drained after the offending event was never handled.
This refutes "the manager continues processing the subsequent events
already drained in the same process call". -/
theorem process_stops_on_unexpected_event :
    (process envOne clientMgrBatch).1 =
      .err (.unknown
        "Received illegal message that message should not have arrived: Stats.") ∧
    (process envOne clientMgrBatch).2.1 = [] := ⟨rfl, rfl⟩

/-- C4 amended: a non-`NewTestcase` event on the client receive path
surfaces a non-fatal `Error::Unknown` from the handler, and `process`
stops there: it returns that error, and the events drained after the
offending one in the same call are not dispatched (only the calls of
the successfully handled prefix appear in the trace). -/
theorem process_unexpected_event_halts {Obs : Type} (env : ClientEnv Obs)
    (mgr : LlmpEventManager) (client : ClientState)
    (good : List (Nat × Event)) (tr : List ClientCall)
    (sender_id : Nat) (event : Event) (rest : List (Nat × Event))
    (hm : mgr.llmp = .isClient client)
    (hdrain : drainMsgs client.inbox = .ok (good ++ (sender_id, event) :: rest))
    (hgood : dispatchEvents env good = (.ok (), tr))
    (hne : event.isNewTestcase = false) :
    (process env mgr).1 =
      .err (.unknown ("Received illegal message that message should not have arrived: "
        ++ event.name ++ ".")) ∧
    (process env mgr).2.1 = tr := by
  have hbad : dispatchEvents env ((sender_id, event) :: rest) =
      (.error (.unknown ("Received illegal message that message should not have arrived: "
        ++ event.name ++ ".")), []) := by
    rw [dispatchEvents_cons, handle_in_client_not_testcase env sender_id event hne]
  have hall : dispatchEvents env (good ++ (sender_id, event) :: rest) =
      (.error (.unknown ("Received illegal message that message should not have arrived: "
        ++ event.name ++ ".")), tr) := by
    rw [dispatchEvents_append_ok env good tr _ hgood, hbad]
    simp
  simp only [process, hm, hdrain, hall]
  exact ⟨trivial, trivial⟩

/-- A concrete exercise of `process_unexpected_event_halts` on the same
batch as the counterexample. -/
theorem process_unexpected_event_halts_witness :
    (process envOne clientMgrBatch).1 =
      .err (.unknown ("Received illegal message that message should not have arrived: "
        ++ (Event.updateStats 1 2).name ++ ".")) ∧
    (process envOne clientMgrBatch).2.1 = [] :=
  process_unexpected_event_halts envOne clientMgrBatch
    { description := descEx
    , inbox :=
        [(4, LLMP_TAG_EVENT_TO_BOTH, encodeEvent (.updateStats 1 2)),
         (5, LLMP_TAG_EVENT_TO_BOTH, encodeEvent (.newTestcase [7] [] 1 [] 0 1))] }
    [] [] 4 (.updateStats 1 2) [(5, .newTestcase [7] [] 1 [] 0 1)]
    rfl (by decide) rfl rfl

/-- C10: calling `process` on a broker-role manager is not an error: it
drains no messages, dispatches nothing to the client handler (the call
trace into the state subsystem is empty, so state, executor and
scheduler are untouched), leaves the manager unchanged, and returns
`Ok(0)`. -/
theorem process_on_broker_frame {Obs : Type} (env : ClientEnv Obs)
    (mgr : LlmpEventManager) (hb : mgr.is_broker = true) :
    process env mgr = (.ok 0, [], mgr) := by
  unfold process
  cases hm : mgr.llmp with
  | isBroker => rfl
  | isClient c =>
      rw [LlmpEventManager.is_broker, hm] at hb
      exact absurd hb (by simp)

/-- A concrete exercise of `process_on_broker_frame` on a broker-role
manager. -/
theorem process_on_broker_frame_witness :
    process envOne brokerMgrEx = (.ok 0, [], brokerMgrEx) :=
  process_on_broker_frame envOne brokerMgrEx rfl

/-- C3: on any client-role manager, the bytes `serialize_state_mgr`
produces — the payload `on_restart` writes as the RESTART message — are
accepted by `deserialize_state_mgr`, and the state component returned
equals the state that was serialized (the manager is reattached from
the serialized description); `encS`/`decS` are the wire codec of the
generic serializable state type, round-tripping per the codec
contract. -/
theorem serialize_deserialize_state_mgr {S : Type} (encS : S → List Nat)
    (decS : List Nat → Option S) (state : S) (mgr : LlmpEventManager)
    (client : ClientState)
    (hrt : ∀ s, decS (encS s) = some s)
    (hm : mgr.llmp = .isClient client) :
    (serialize_state_mgr encS state mgr).bind (deserialize_state_mgr decS) =
      .ok (state, existing_client_from_description client.description) := by
  unfold serialize_state_mgr LlmpEventManager.describe
  rw [hm]
  show deserialize_state_mgr decS (encodeStatePair (encS state) client.description) = _
  simp only [deserialize_state_mgr, encodeStatePair, decodeList_encodeList, hrt]

/-- A concrete exercise of `serialize_deserialize_state_mgr` at state 7
with a singleton-list codec. -/
theorem serialize_deserialize_state_mgr_witness :
    (serialize_state_mgr (fun n : Nat => [n]) 7 clientMgrEx).bind
        (deserialize_state_mgr
          (fun l => match l with | [n] => some n | _ => none)) =
      .ok (7, existing_client_from_description descEx) :=
  serialize_deserialize_state_mgr (fun n : Nat => [n])
    (fun l => match l with | [n] => some n | _ => none) 7 clientMgrEx
    { description := descEx, inbox := [] } (fun _ => rfl) rfl

/-- C8: dropping an `LlmpEventManager` runs `await_restart_safe` before
the manager's pages are torn down (teardown is the last action of the
drop trace), and `await_restart_safe` is a no-op on a broker-role
manager — the blocking wait is emitted only in the client role. -/
theorem drop_runs_await_restart_safe (m : LlmpEventManager) :
    drop_manager m = await_restart_safe m ++ [.teardownPages] ∧
    (m.is_broker = true →
      await_restart_safe m = [] ∧ drop_manager m = [.teardownPages]) ∧
    (m.is_broker = false →
      drop_manager m = [.awaitSaveToUnmapBlocking, .teardownPages]) := by
  refine ⟨rfl, ?_, ?_⟩ <;>
    · intro h
      unfold LlmpEventManager.is_broker at h
      unfold drop_manager await_restart_safe
      cases hm : m.llmp with
      | isBroker => first
          | exact ⟨rfl, rfl⟩
          | (rw [hm] at h; exact absurd h (by simp))
      | isClient c => first
          | rfl
          | (rw [hm] at h; exact absurd h (by simp))

/-- A concrete exercise of `drop_runs_await_restart_safe` on a broker
and on a client manager. -/
theorem drop_runs_await_restart_safe_witness :
    (await_restart_safe brokerMgrEx = [] ∧
      drop_manager brokerMgrEx = [.teardownPages]) ∧
    drop_manager clientMgrEx = [.awaitSaveToUnmapBlocking, .teardownPages] :=
  ⟨(drop_runs_await_restart_safe brokerMgrEx).2.1 rfl,
   (drop_runs_await_restart_safe clientMgrEx).2.2 rfl⟩

end LlmpEvents
